import Mathlib

/-!
Shallow embedding of the go-fed ActivityStreams generated codec:
the "followers" property cell (streams/impl/activitystreams/property_followers),
the "type" property list (package propertytype) and the OrderedCollectionPage
entity assembler/serializer (package typeorderedcollectionpage).

Go `interface{}` wire values are modelled by `RawValue`; a Go
`map[string]interface{}` is modelled as an association list with
first-match lookup (Go maps have unique keys, so first-match agrees with
map semantics; theorems that build maps state their conclusions through
`alookup`, i.e. up to key order).
-/

/-- A generic wire value: the Go `interface{}` produced by unmarshalling
a text format (string, number, boolean, null, list, nested object).
`null` models a nil Go interface value. -/
inductive RawValue where
  | str (s : String)
  | int (n : Int)
  | bool (b : Bool)
  | null
  | arr (xs : List RawValue)
  | obj (kvs : List (String × RawValue))

mutual

/-- Structural equality test on wire values. -/
def RawValue.beq : RawValue → RawValue → Bool
  | .str a, .str b => a == b
  | .int a, .int b => a == b
  | .bool a, .bool b => a == b
  | .null, .null => true
  | .arr xs, .arr ys => RawValue.beqList xs ys
  | .obj xs, .obj ys => RawValue.beqPairs xs ys
  | _, _ => false

def RawValue.beqList : List RawValue → List RawValue → Bool
  | [], [] => true
  | x :: xs, y :: ys => RawValue.beq x y && RawValue.beqList xs ys
  | _, _ => false

def RawValue.beqPairs : List (String × RawValue) → List (String × RawValue) → Bool
  | [], [] => true
  | (k1, v1) :: xs, (k2, v2) :: ys => k1 == k2 && RawValue.beq v1 v2 && RawValue.beqPairs xs ys
  | _, _ => false

end

mutual

theorem RawValue.beq_refl : ∀ a : RawValue, RawValue.beq a a = true
  | .str _ => by simp [RawValue.beq]
  | .int _ => by simp [RawValue.beq]
  | .bool _ => by simp [RawValue.beq]
  | .null => by simp [RawValue.beq]
  | .arr xs => by simp [RawValue.beq]; exact RawValue.beqList_refl xs
  | .obj xs => by simp [RawValue.beq]; exact RawValue.beqPairs_refl xs

theorem RawValue.beqList_refl : ∀ xs : List RawValue, RawValue.beqList xs xs = true
  | [] => by simp [RawValue.beqList]
  | x :: xs => by
      simp [RawValue.beqList]
      exact ⟨RawValue.beq_refl x, RawValue.beqList_refl xs⟩

theorem RawValue.beqPairs_refl : ∀ xs : List (String × RawValue), RawValue.beqPairs xs xs = true
  | [] => by simp [RawValue.beqPairs]
  | (k, v) :: xs => by
      simp [RawValue.beqPairs]
      exact ⟨RawValue.beq_refl v, RawValue.beqPairs_refl xs⟩

end

mutual

theorem RawValue.eq_of_beq : ∀ a b : RawValue, RawValue.beq a b = true → a = b
  | .str _, b, h => by cases b <;> simp_all [RawValue.beq]
  | .int _, b, h => by cases b <;> simp_all [RawValue.beq]
  | .bool _, b, h => by cases b <;> simp_all [RawValue.beq]
  | .null, b, h => by cases b <;> simp_all [RawValue.beq]
  | .arr xs, b, h => by
      cases b <;> simp_all [RawValue.beq]
      exact RawValue.eqList_of_beqList xs _ h
  | .obj xs, b, h => by
      cases b <;> simp_all [RawValue.beq]
      exact RawValue.eqPairs_of_beqPairs xs _ h

theorem RawValue.eqList_of_beqList : ∀ xs ys : List RawValue,
    RawValue.beqList xs ys = true → xs = ys
  | [], ys, h => by cases ys <;> simp_all [RawValue.beqList]
  | x :: xs, ys, h => by
      cases ys with
      | nil => simp_all [RawValue.beqList]
      | cons y ys =>
        simp only [RawValue.beqList, Bool.and_eq_true] at h
        rw [RawValue.eq_of_beq x y h.1, RawValue.eqList_of_beqList xs ys h.2]

theorem RawValue.eqPairs_of_beqPairs : ∀ xs ys : List (String × RawValue),
    RawValue.beqPairs xs ys = true → xs = ys
  | [], ys, h => by cases ys <;> simp_all [RawValue.beqPairs]
  | (k, v) :: xs, ys, h => by
      cases ys with
      | nil => simp_all [RawValue.beqPairs]
      | cons p ys =>
        cases p with
        | mk k2 v2 =>
          simp only [RawValue.beqPairs, Bool.and_eq_true, beq_iff_eq] at h
          rw [h.1.1, RawValue.eq_of_beq v v2 h.1.2, RawValue.eqPairs_of_beqPairs xs ys h.2]

end

instance : DecidableEq RawValue := fun a b =>
  if h : RawValue.beq a b = true then
    isTrue (RawValue.eq_of_beq a b h)
  else
    isFalse (fun hh => h (by rw [hh]; exact RawValue.beq_refl b))

/-- A raw document: Go `map[string]interface{}`. -/
abbrev RawDoc := List (String × RawValue)

/-- The document-level alias table: Go `map[string]string` from namespace to the
registered short name. -/
abbrev AliasMap := List (String × String)

/-- First-match association lookup, the model of Go map indexing `m[k]`. -/
def alookup {α : Type} : List (String × α) → String → Option α
  | [], _ => none
  | (k, v) :: rest, key => if k = key then some v else alookup rest key

/-- Model of the Go two-result form `_, ok := m[k]`. -/
def containsKey {α : Type} (m : List (String × α)) (k : String) : Bool :=
  (alookup m k).isSome

/-- Model of the Go map assignment `m[k] = v`: replace the binding if the key
is present, otherwise add it (Go maps hold one binding per key). -/
def mapInsert : RawDoc → String → RawValue → RawDoc
  | [], k, v => [(k, v)]
  | (k0, v0) :: rest, k, v =>
    if k0 = k then (k, v) :: rest else (k0, v0) :: mapInsert rest k v

theorem alookup_mapInsert_self (m : RawDoc) (k : String) (v : RawValue) :
    alookup (mapInsert m k v) k = some v := by
  induction m with
  | nil => simp [mapInsert, alookup]
  | cons p rest ih =>
    cases p with
    | mk k0 v0 =>
      by_cases h : k0 = k <;> simp [mapInsert, alookup, h, ih]

theorem alookup_mapInsert_ne (m : RawDoc) (k k' : String) (v : RawValue)
    (h : k' ≠ k) : alookup (mapInsert m k v) k' = alookup m k' := by
  induction m with
  | nil => simp [mapInsert, alookup, Ne.symm h]
  | cons p rest ih =>
    cases p with
    | mk k0 v0 =>
      by_cases h0 : k0 = k
      · subst h0
        simp [mapInsert, alookup, Ne.symm h]
      · by_cases h1 : k0 = k' <;> simp [mapInsert, alookup, h0, h1, ih, h]

theorem alookup_mem {α : Type} (m : List (String × α)) (k : String) (v : α)
    (h : alookup m k = some v) : (k, v) ∈ m := by
  induction m with
  | nil => simp [alookup] at h
  | cons p rest ih =>
    cases p with
    | mk k0 v0 =>
      by_cases h0 : k0 = k
      · subst h0
        simp [alookup] at h
        simp [h]
      · simp [alookup, h0] at h
        exact List.mem_cons_of_mem _ (ih h)

theorem alookup_eq_none_iff {α : Type} (m : List (String × α)) (k : String) :
    alookup m k = none ↔ ∀ p ∈ m, p.1 ≠ k := by
  induction m with
  | nil => simp [alookup]
  | cons p rest ih =>
    cases p with
    | mk k0 v0 =>
      by_cases h0 : k0 = k
      · subst h0
        simp [alookup]
      · simp [alookup, h0, ih]

theorem alookup_filter_key {α : Type} (m : List (String × α)) (pred : String → Bool)
    (k : String) (hk : pred k = true) :
    alookup (m.filter (fun p => pred p.1)) k = alookup m k := by
  induction m with
  | nil => simp [alookup]
  | cons p rest ih =>
    cases p with
    | mk k0 v0 =>
      by_cases h0 : k0 = k
      · subst h0
        simp [List.filter, hk, alookup]
      · cases hp : pred k0 <;> simp [List.filter, hp, alookup, h0, ih]

theorem alookup_filter_none {α : Type} (m : List (String × α)) (pred : String → Bool)
    (k : String) (h : alookup m k = none) :
    alookup (m.filter (fun p => pred p.1)) k = none := by
  induction m with
  | nil => simp [alookup]
  | cons p rest ih =>
    cases p with
    | mk k0 v0 =>
      by_cases h0 : k0 = k
      · subst h0
        simp [alookup] at h
      · simp [alookup, h0] at h
        cases hp : pred k0 <;> simp [List.filter, hp, alookup, h0, ih h]

/-- Constructor rank used by the arbitrary-but-stable wire-value comparator. -/
def RawValue.rank : RawValue → Nat
  | .str _ => 0
  | .int _ => 1
  | .bool _ => 2
  | .null => 3
  | .arr _ => 4
  | .obj _ => 5

mutual

/-- Modelled from the spec: the kind-specific comparators of the nested
vocabulary types (OrderedCollection.LessThan and friends) are not under src/;
the spec only requires an arbitrary-but-stable total comparison, modelled here
as a structural ordering on the underlying wire value. -/
def RawValue.cmp : RawValue → RawValue → Ordering
  | .str a, .str b => compare a b
  | .int a, .int b => compare a b
  | .bool a, .bool b => compare a b
  | .null, .null => .eq
  | .arr a, .arr b => RawValue.cmpList a b
  | .obj a, .obj b => RawValue.cmpPairs a b
  | a, b => compare a.rank b.rank

def RawValue.cmpList : List RawValue → List RawValue → Ordering
  | [], [] => .eq
  | [], _ :: _ => .lt
  | _ :: _, [] => .gt
  | x :: xs, y :: ys =>
    match RawValue.cmp x y with
    | .eq => RawValue.cmpList xs ys
    | o => o

def RawValue.cmpPairs : List (String × RawValue) → List (String × RawValue) → Ordering
  | [], [] => .eq
  | [], _ :: _ => .lt
  | _ :: _, [] => .gt
  | (k1, v1) :: xs, (k2, v2) :: ys =>
    match compare k1 k2 with
    | .eq =>
      match RawValue.cmp v1 v2 with
      | .eq => RawValue.cmpPairs xs ys
      | o => o
    | o => o

end

/-- Reads the document alias registered for the ActivityStreams namespace:
the Go pattern `if a, ok := aliasMap["https://www.w3.org/TR/activitystreams-vocabulary"]; ok`. -/
def aliasOf (aliasMap : AliasMap) : Option String :=
  alookup aliasMap "https://www.w3.org/TR/activitystreams-vocabulary"

/-- The `alias` local of the generated deserializers: the registered alias or "". -/
def aliasStr (aliasMap : AliasMap) : String :=
  (aliasOf aliasMap).getD ""

/-- The `aliasPrefix` local of DeserializeOrderedCollectionPage: `a + ":"` when an
alias is registered, "" otherwise. -/
def aliasColon (aliasMap : AliasMap) : String :=
  match aliasOf aliasMap with
  | some a => a ++ ":"
  | none => ""

/-- The wire key of a property: `fmt.Sprintf("%s:%s", alias, name)` when
`len(alias) > 0`, else the bare name. -/
def resolveKey (al name : String) : String :=
  if al.length > 0 then al ++ ":" ++ name else name

/-- Model of Go strings.TrimPrefix: drop `pre` when it heads `s`, else `s`. -/
def trimPref (s pre : String) : String :=
  if s.take pre.length = pre then s.drop pre.length else s

/-- Character admissible inside a URI scheme (RFC 3986). -/
def isSchemeChar (c : Char) : Bool :=
  c.isAlpha || c.isDigit || c == '+' || c == '-' || c == '.'

/-- Modelled from the spec: the reference-identifier parser's scheme check
(`u, err := url.Parse(s); err == nil && len(u.Scheme) > 0` in
DeserializeFollowersProperty; net/url is not repository code). True when `s`
starts with an ALPHA-led scheme component terminated by ':'. -/
def hasScheme (s : String) : Bool :=
  match s.toList with
  | [] => false
  | c :: _ => c.isAlpha && ((s.toList.dropWhile isSchemeChar).head? == some ':')

/-- Modelled from the spec: a parsed reference identifier (`*url.URL`);
`str` is the original text, which `u.String()` returns back. -/
structure URL where
  str : String
deriving DecidableEq

/-- Error conditions of the codec. The generated Go code returns distinct
`fmt.Errorf` values; only the condition class is relevant here. -/
inductive Err where
  | missingType
  | typeMismatch
  | malformedType
  | notOfKind (kind : String)
deriving DecidableEq

/-- Modelled from the spec: `anyuri.DeserializeAnyURI` (streams/values/anyURI is
not under src/): accepts any wire string (Go url.Parse accepts any ordinary
string), rejects every non-string value. -/
def DeserializeAnyURI : RawValue → Except Err URL
  | RawValue.str s => .ok ⟨s⟩
  | _ => .error (Err.notOfKind "anyURI")

/-- Modelled from the spec: `anyuri.SerializeAnyURI`: `u.String()`. -/
def SerializeAnyURI (u : URL) : RawValue :=
  RawValue.str u.str

/-- Modelled from the spec: `string1.DeserializeString` (streams/values/string is
not under src/): accepts exactly wire strings. -/
def DeserializeString : RawValue → Except Err String
  | RawValue.str s => .ok s
  | _ => .error (Err.notOfKind "string")

/-- Modelled from the spec: `string1.SerializeString`. -/
def SerializeString (s : String) : RawValue :=
  RawValue.str s

/-- TypePropertyIterator (package propertytype): one cell of the non-functional
"type" property. `vocabAlias` models the Go field `alias`; the `parent`
back-reference is a non-owning traversal aid and is not part of the value
model. Zero values of omitted Go fields are the field defaults. -/
structure TypePropertyIterator where
  anyURIMember : Option URL := none
  stringMember : String := ""
  hasStringMember : Bool := false
  unknown : Option RawValue := none
  vocabAlias : String := ""
  myIdx : Nat := 0
deriving DecidableEq

/-- NewTypePropertyIterator. -/
def NewTypePropertyIterator : TypePropertyIterator :=
  { vocabAlias := "" }

/-- IsAnyURI: `this.anyURIMember != nil`. -/
def TypePropertyIterator.IsAnyURI (this : TypePropertyIterator) : Bool :=
  this.anyURIMember.isSome

/-- IsIRI: `this.anyURIMember != nil` (the identifier accessor aliases anyURI). -/
def TypePropertyIterator.IsIRI (this : TypePropertyIterator) : Bool :=
  this.anyURIMember.isSome

/-- IsString: `this.hasStringMember`. -/
def TypePropertyIterator.IsString (this : TypePropertyIterator) : Bool :=
  this.hasStringMember

/-- HasAny: IsAnyURI or IsString. -/
def TypePropertyIterator.HasAny (this : TypePropertyIterator) : Bool :=
  this.IsAnyURI || this.IsString

/-- KindIndex of a type-property cell: anyURI ↦ 0, string ↦ 1, then the IRI
branch (-2, unreachable because IsIRI coincides with IsAnyURI) and the
fallback -1. -/
def TypePropertyIterator.KindIndex (this : TypePropertyIterator) : Int :=
  if this.IsAnyURI then 0
  else if this.IsString then 1
  else if this.IsIRI then -2
  else -1

/-- deserializeTypePropertyIterator: try anyURI, then string, then fall back to
the unknown slot; never an error. -/
def deserializeTypePropertyIterator (i : RawValue) (aliasMap : AliasMap) :
    Except Err (Option TypePropertyIterator) :=
  let al := aliasStr aliasMap
  match DeserializeAnyURI i with
  | .ok v => .ok (some { vocabAlias := al, anyURIMember := some v })
  | .error _ =>
    match DeserializeString i with
    | .ok v => .ok (some { vocabAlias := al, hasStringMember := true, stringMember := v })
    | .error _ => .ok (some { vocabAlias := al, unknown := some i })

/-- TypePropertyIterator.serialize: reconstruct the wire value of the committed
kind, else return the unknown slot (a nil Go interface is `RawValue.null`). -/
def TypePropertyIterator.serialize (this : TypePropertyIterator) : RawValue :=
  if this.IsAnyURI then
    match this.anyURIMember with
    | some u => SerializeAnyURI u
    | none => RawValue.null
  else if this.IsString then SerializeString this.stringMember
  else this.unknown.getD RawValue.null

/-- TypeProperty (package propertytype): the non-functional "type" property. -/
structure TypeProperty where
  properties : List TypePropertyIterator
  vocabAlias : String
deriving DecidableEq

/-- NewTypeProperty. -/
def NewTypeProperty : TypeProperty :=
  { properties := [], vocabAlias := "" }

/-- AppendString: append a string cell at index Len(). -/
def TypeProperty.AppendString (this : TypeProperty) (v : String) : TypeProperty :=
  { this with properties := this.properties ++
      [{ vocabAlias := this.vocabAlias, hasStringMember := true,
         myIdx := this.properties.length, stringMember := v }] }

/-- The re-indexing loop of DeserializeTypeProperty
(`for idx, ele := range this.properties { ele.myIdx = idx }`; the parent
pointer is not part of the value model). -/
def reindexFrom : Nat → List TypePropertyIterator → List TypePropertyIterator
  | _, [] => []
  | n, p :: rest => { p with myIdx := n } :: reindexFrom (n + 1) rest

/-- The element loop of DeserializeTypeProperty: deserialize each element,
propagating errors, skipping nil results. -/
def deserializeTypeItems : List RawValue → AliasMap → Except Err (List TypePropertyIterator)
  | [], _ => .ok []
  | i :: rest, aliasMap =>
    match deserializeTypePropertyIterator i aliasMap with
    | .error e => .error e
    | .ok none => deserializeTypeItems rest aliasMap
    | .ok (some p) =>
      match deserializeTypeItems rest aliasMap with
      | .error e => .error e
      | .ok ps => .ok (p :: ps)

/-- The list/single dispatch of DeserializeTypeProperty: a wire list is
iterated element-wise (`if list, ok := i.([]interface{}); ok`), any other
value is treated as a single element. -/
def typeElems : RawValue → List RawValue
  | RawValue.arr list => list
  | i => [i]

/-- DeserializeTypeProperty: absent key gives (nil, nil); a list value is
iterated element-wise, any other value is treated as a single element; the
collected cells are then re-indexed. -/
def DeserializeTypeProperty (m : RawDoc) (aliasMap : AliasMap) :
    Except Err (Option TypeProperty) :=
  let al := aliasStr aliasMap
  let propName := resolveKey al "type"
  match alookup m propName with
  | none => .ok none
  | some i =>
    match deserializeTypeItems (typeElems i) aliasMap with
    | .error e => .error e
    | .ok ps => .ok (some { vocabAlias := al, properties := reindexFrom 0 ps })

/-- The one-element shortcut of TypeProperty.Serialize: a list of exactly one
serialized value is collapsed to the bare value. -/
def collapseOne : List RawValue → RawValue
  | [b] => b
  | l => RawValue.arr l

/-- TypeProperty.Serialize: serialize every cell in order; a single value is
returned bare, any other count as a list. Cell serialization is total, so the
Go error path does not occur. -/
def TypeProperty.Serialize (this : TypeProperty) : RawValue :=
  collapseOne (this.properties.map TypePropertyIterator.serialize)

/-- Shared type-validation step of the generated type deserializers
(lines 89–111 of DeserializeOrderedCollectionPage, instantiated by the
generator for each type name): missing "type" key, a string value compared
after alias stripping, an array value searched for a matching string element,
or a malformed value of any other shape. Returns the error, or none on
success. -/
def validateType (aliasCol typeName : String) (typeValue : Option RawValue) : Option Err :=
  match typeValue with
  | none => some Err.missingType
  | some (RawValue.str s) =>
    if trimPref s aliasCol = typeName then none else some Err.typeMismatch
  | some (RawValue.arr xs) =>
    if xs.any (fun elemVal =>
        match elemVal with
        | RawValue.str s => trimPref s aliasCol == typeName
        | _ => false) then
      none
    else some Err.typeMismatch
  | some _ => some Err.malformedType

/-- Modelled from the spec: the nested OrderedCollection entity value
(vocab.OrderedCollectionInterface; its implementation is not under src/),
kept as the raw map it was parsed from. -/
structure OrderedCollectionValue where
  raw : RawDoc
deriving DecidableEq

/-- Modelled from the spec: the nested Collection entity value. -/
structure CollectionValue where
  raw : RawDoc
deriving DecidableEq

/-- Modelled from the spec: the nested CollectionPage entity value. -/
structure CollectionPageValue where
  raw : RawDoc
deriving DecidableEq

/-- Modelled from the spec: the nested OrderedCollectionPage entity value as a
member of the followers property. -/
structure OrderedCollectionPageValue where
  raw : RawDoc
deriving DecidableEq

/-- Modelled from the spec: mgr.DeserializeOrderedCollectionActivityStreams
(not under src/): the generated deserializer of that type, which fails exactly
when its type validation fails, following the same generated pattern as
DeserializeOrderedCollectionPage. -/
def DeserializeOrderedCollectionValue (m : RawDoc) (aliasMap : AliasMap) :
    Except Err OrderedCollectionValue :=
  match validateType (aliasColon aliasMap) "OrderedCollection" (alookup m "type") with
  | some e => .error e
  | none => .ok ⟨m⟩

/-- Modelled from the spec: mgr.DeserializeCollectionActivityStreams. -/
def DeserializeCollectionValue (m : RawDoc) (aliasMap : AliasMap) :
    Except Err CollectionValue :=
  match validateType (aliasColon aliasMap) "Collection" (alookup m "type") with
  | some e => .error e
  | none => .ok ⟨m⟩

/-- Modelled from the spec: mgr.DeserializeCollectionPageActivityStreams. -/
def DeserializeCollectionPageValue (m : RawDoc) (aliasMap : AliasMap) :
    Except Err CollectionPageValue :=
  match validateType (aliasColon aliasMap) "CollectionPage" (alookup m "type") with
  | some e => .error e
  | none => .ok ⟨m⟩

/-- Modelled from the spec: mgr.DeserializeOrderedCollectionPageActivityStreams
as used for followers member values. -/
def DeserializeOrderedCollectionPageValue (m : RawDoc) (aliasMap : AliasMap) :
    Except Err OrderedCollectionPageValue :=
  match validateType (aliasColon aliasMap) "OrderedCollectionPage" (alookup m "type") with
  | some e => .error e
  | none => .ok ⟨m⟩

/-- Modelled from the spec: the arbitrary-but-stable LessThan of the nested
OrderedCollection value. -/
def OrderedCollectionValue.LessThan (a b : OrderedCollectionValue) : Bool :=
  match RawValue.cmp (RawValue.obj a.raw) (RawValue.obj b.raw) with
  | .lt => true
  | _ => false

/-- Modelled from the spec: LessThan of the nested Collection value. -/
def CollectionValue.LessThan (a b : CollectionValue) : Bool :=
  match RawValue.cmp (RawValue.obj a.raw) (RawValue.obj b.raw) with
  | .lt => true
  | _ => false

/-- Modelled from the spec: LessThan of the nested CollectionPage value. -/
def CollectionPageValue.LessThan (a b : CollectionPageValue) : Bool :=
  match RawValue.cmp (RawValue.obj a.raw) (RawValue.obj b.raw) with
  | .lt => true
  | _ => false

/-- Modelled from the spec: LessThan of the nested OrderedCollectionPage value. -/
def OrderedCollectionPageValue.LessThan (a b : OrderedCollectionPageValue) : Bool :=
  match RawValue.cmp (RawValue.obj a.raw) (RawValue.obj b.raw) with
  | .lt => true
  | _ => false

/-- FollowersProperty (package propertyfollowers): the functional "followers"
property cell. `vocabAlias` models the Go field `alias`; nil members and the
nil iri/unknown slots are `none`. -/
structure FollowersProperty where
  OrderedCollectionMember : Option OrderedCollectionValue := none
  CollectionMember : Option CollectionValue := none
  CollectionPageMember : Option CollectionPageValue := none
  OrderedCollectionPageMember : Option OrderedCollectionPageValue := none
  unknown : Option RawValue := none
  iri : Option URL := none
  vocabAlias : String := ""
deriving DecidableEq

/-- NewFollowersProperty. -/
def NewFollowersProperty : FollowersProperty :=
  { vocabAlias := "" }

/-- IsCollection: `this.CollectionMember != nil`. -/
def FollowersProperty.IsCollection (this : FollowersProperty) : Bool :=
  this.CollectionMember.isSome

/-- IsCollectionPage. -/
def FollowersProperty.IsCollectionPage (this : FollowersProperty) : Bool :=
  this.CollectionPageMember.isSome

/-- IsIRI: `this.iri != nil`. -/
def FollowersProperty.IsIRI (this : FollowersProperty) : Bool :=
  this.iri.isSome

/-- IsOrderedCollection. -/
def FollowersProperty.IsOrderedCollection (this : FollowersProperty) : Bool :=
  this.OrderedCollectionMember.isSome

/-- IsOrderedCollectionPage. -/
def FollowersProperty.IsOrderedCollectionPage (this : FollowersProperty) : Bool :=
  this.OrderedCollectionPageMember.isSome

/-- HasAny: any committed member or the iri slot. -/
def FollowersProperty.HasAny (this : FollowersProperty) : Bool :=
  this.IsOrderedCollection || this.IsCollection || this.IsCollectionPage ||
    this.IsOrderedCollectionPage || this.iri.isSome

/-- Clear: empty every slot (the alias is untouched). -/
def FollowersProperty.Clear (this : FollowersProperty) : FollowersProperty :=
  { this with
    OrderedCollectionMember := none,
    CollectionMember := none,
    CollectionPageMember := none,
    OrderedCollectionPageMember := none,
    unknown := none,
    iri := none }

/-- SetCollection: Clear, then store the value. -/
def FollowersProperty.SetCollection (this : FollowersProperty)
    (v : Option CollectionValue) : FollowersProperty :=
  { this.Clear with CollectionMember := v }

/-- SetCollectionPage. -/
def FollowersProperty.SetCollectionPage (this : FollowersProperty)
    (v : Option CollectionPageValue) : FollowersProperty :=
  { this.Clear with CollectionPageMember := v }

/-- SetIRI. -/
def FollowersProperty.SetIRI (this : FollowersProperty)
    (v : Option URL) : FollowersProperty :=
  { this.Clear with iri := v }

/-- SetOrderedCollection. -/
def FollowersProperty.SetOrderedCollection (this : FollowersProperty)
    (v : Option OrderedCollectionValue) : FollowersProperty :=
  { this.Clear with OrderedCollectionMember := v }

/-- SetOrderedCollectionPage. -/
def FollowersProperty.SetOrderedCollectionPage (this : FollowersProperty)
    (v : Option OrderedCollectionPageValue) : FollowersProperty :=
  { this.Clear with OrderedCollectionPageMember := v }

/-- KindIndex of the followers cell: OrderedCollection 0, Collection 1,
CollectionPage 2, OrderedCollectionPage 3, IRI -2, else -1. -/
def FollowersProperty.KindIndex (this : FollowersProperty) : Int :=
  if this.IsOrderedCollection then 0
  else if this.IsCollection then 1
  else if this.IsCollectionPage then 2
  else if this.IsOrderedCollectionPage then 3
  else if this.IsIRI then -2
  else -1

/-- LessThan of the followers cell: compare kind indices, then delegate to the
committed kind's own comparison (the string comparison of the two IRIs in the
IRI case). -/
def FollowersProperty.LessThan (this o : FollowersProperty) : Bool :=
  let idx1 := this.KindIndex
  let idx2 := o.KindIndex
  if idx1 < idx2 then true
  else if idx1 > idx2 then false
  else if this.IsOrderedCollection then
    match this.OrderedCollectionMember, o.OrderedCollectionMember with
    | some a, some b => a.LessThan b
    | _, _ => false
  else if this.IsCollection then
    match this.CollectionMember, o.CollectionMember with
    | some a, some b => a.LessThan b
    | _, _ => false
  else if this.IsCollectionPage then
    match this.CollectionPageMember, o.CollectionPageMember with
    | some a, some b => a.LessThan b
    | _, _ => false
  else if this.IsOrderedCollectionPage then
    match this.OrderedCollectionPageMember, o.OrderedCollectionPageMember with
    | some a, some b => a.LessThan b
    | _, _ => false
  else if this.IsIRI then
    match this.iri, o.iri with
    | some a, some b => decide (a.str < b.str)
    | _, _ => false
  else false

/-- The string branch of DeserializeFollowersProperty: a string whose URL
parse has a non-empty scheme commits the IRI kind. -/
def followersIRICandidate : RawValue → Option URL
  | RawValue.str s => if hasScheme s then some ⟨s⟩ else none
  | _ => none

/-- The map branch of DeserializeFollowersProperty: try the four candidate
kind deserializers in priority order, committing the first success. -/
def followersMapCandidate (i : RawValue) (aliasMap : AliasMap) (al : String) :
    Option FollowersProperty :=
  match i with
  | RawValue.obj kvs =>
    match DeserializeOrderedCollectionValue kvs aliasMap with
    | .ok v => some { OrderedCollectionMember := some v, vocabAlias := al }
    | .error _ =>
      match DeserializeCollectionValue kvs aliasMap with
      | .ok v => some { CollectionMember := some v, vocabAlias := al }
      | .error _ =>
        match DeserializeCollectionPageValue kvs aliasMap with
        | .ok v => some { CollectionPageMember := some v, vocabAlias := al }
        | .error _ =>
          match DeserializeOrderedCollectionPageValue kvs aliasMap with
          | .ok v => some { OrderedCollectionPageMember := some v, vocabAlias := al }
          | .error _ => none
  | _ => none

/-- DeserializeFollowersProperty: absent key gives (nil, nil); a present value
is tried as an absolute IRI string, then as a map against the four candidate
kinds, and otherwise lands in the unknown slot. Never an error. -/
def DeserializeFollowersProperty (m : RawDoc) (aliasMap : AliasMap) :
    Except Err (Option FollowersProperty) :=
  let al := aliasStr aliasMap
  let propName := resolveKey al "followers"
  match alookup m propName with
  | none => .ok none
  | some i =>
    match followersIRICandidate i with
    | some u => .ok (some { vocabAlias := al, iri := some u })
    | none =>
      match followersMapCandidate i aliasMap al with
      | some this => .ok (some this)
      | none => .ok (some { vocabAlias := al, unknown := some i })

/-- The bare wire names of the OrderedCollectionPage properties other than
"type", in struct declaration order. Their per-property deserializers and
serializers are not under src/ and are modelled from the spec (see
`deserializeGenerics`). -/
def genericNames : List String :=
  ["altitude", "attachment", "attributedTo", "audience", "bcc", "bto", "cc",
   "content", "context", "current", "duration", "endTime", "first",
   "generator", "icon", "id", "image", "inReplyTo", "last", "likes",
   "location", "mediaType", "name", "next", "object", "orderedItems",
   "partOf", "prev", "preview", "published", "replies", "shares",
   "startIndex", "startTime", "summary", "tag", "to", "totalItems",
   "updated", "url"]

/-- The literal known-property exclusion list of the unknown-deserialization
loop of DeserializeOrderedCollectionPage (the chain of `if k == ... continue`
tests), in source order. -/
def exclusionList : List String :=
  ["altitude", "attachment", "attributedTo", "audience", "bcc", "bto", "cc",
   "content", "contentMap", "context", "current", "duration", "endTime",
   "first", "generator", "icon", "id", "image", "inReplyTo", "last", "likes",
   "location", "mediaType", "name", "nameMap", "next", "object",
   "orderedItems", "partOf", "prev", "preview", "published", "replies",
   "shares", "startIndex", "startTime", "summary", "summaryMap", "tag", "to",
   "totalItems", "type", "updated", "url"]

/-- OrderedCollectionPage (package typeorderedcollectionpage). `TypeMember`
models the Go field `Type` (a Lean keyword); the forty other property fields,
whose property packages are not under src/, are modelled uniformly by
`knownProps`, an association from bare property name to the stored parsed
value (see `deserializeGenerics`); `unknown` is the extension bag. -/
structure OrderedCollectionPage where
  knownProps : List (String × RawValue)
  TypeMember : Option TypeProperty
  vocabAlias : String
  unknown : List (String × RawValue)
deriving DecidableEq

/-- Modelled from the spec: the per-property deserialization block for the
forty properties other than "type" (their packages are not under src/). Each
property reads its alias-resolved wire key; an absent key leaves the property
unset and is not an error; a present value is stored and later re-serialized
verbatim (kind dispatch never fails, by the spec's fallback policy). -/
def deserializeGenerics (m : RawDoc) (al : String) : List (String × RawValue) :=
  genericNames.filterMap (fun n => (alookup m (resolveKey al n)).map (fun v => (n, v)))

/-- DeserializeOrderedCollectionPage: validate the literal "type" key, run the
per-property deserializers (the "type" property from src, the other forty
spec-modelled), then copy every key that is not in the exclusion list into the
extension bag verbatim. -/
def DeserializeOrderedCollectionPage (m : RawDoc) (aliasMap : AliasMap) :
    Except Err OrderedCollectionPage :=
  let al := aliasStr aliasMap
  match validateType (aliasColon aliasMap) "OrderedCollectionPage" (alookup m "type") with
  | some e => .error e
  | none =>
    match DeserializeTypeProperty m aliasMap with
    | .error e => .error e
    | .ok tp =>
      .ok { vocabAlias := al
            knownProps := deserializeGenerics m al
            TypeMember := tp
            unknown := m.filter (fun p => !(exclusionList.contains p.1)) }

/-- NewOrderedCollectionPage: a fresh entity whose type property holds the
single string "OrderedCollectionPage". -/
def NewOrderedCollectionPage : OrderedCollectionPage :=
  { TypeMember := some (NewTypeProperty.AppendString "OrderedCollectionPage")
    vocabAlias := ""
    knownProps := []
    unknown := [] }

/-- The known-property emission loop of OrderedCollectionPage.Serialize for the
forty spec-modelled properties: each set property whose serialized value is
non-nil is written under its bare name (`m[this.X.Name()] = i`). -/
def serializeGenerics : List (String × RawValue) → RawDoc → RawDoc
  | [], m => m
  | (n, v) :: rest, m =>
    serializeGenerics rest (if v = RawValue.null then m else mapInsert m n v)

/-- The extension-bag emission loop of OrderedCollectionPage.Serialize:
`if _, has := m[k]; !has { m[k] = v }`. -/
def insertUnknowns : List (String × RawValue) → RawDoc → RawDoc
  | [], m => m
  | (k, v) :: rest, m =>
    insertUnknowns rest (if containsKey m k then m else mapInsert m k v)

/-- The known-property part of OrderedCollectionPage.Serialize: the hardcoded
"type" entry (alias-qualified type name), then the forty generic properties,
then the "type" property itself (overwriting the hardcoded entry when it
serializes to a non-nil value). Property serialization is total in this model,
so the Go error paths do not occur. -/
def serializeKnownPart (this : OrderedCollectionPage) : RawDoc :=
  let typeName := if this.vocabAlias.length > 0 then
      this.vocabAlias ++ ":" ++ "OrderedCollectionPage"
    else "OrderedCollectionPage"
  let m0 : RawDoc := mapInsert [] "type" (RawValue.str typeName)
  let m1 := serializeGenerics this.knownProps m0
  match this.TypeMember with
  | none => m1
  | some tp =>
    if tp.Serialize = RawValue.null then m1 else mapInsert m1 "type" tp.Serialize

/-- OrderedCollectionPage.Serialize: known properties, then every extension-bag
entry whose key is not already present. -/
def OrderedCollectionPage.Serialize (this : OrderedCollectionPage) : RawDoc :=
  insertUnknowns this.unknown (serializeKnownPart this)

/-- A followers cell committed to the IRI kind only. -/
def iriOnlyCell : FollowersProperty :=
  { iri := some ⟨"http://example.org/x"⟩ }

/-- A followers cell committed to the OrderedCollection kind. -/
def ocCell : FollowersProperty :=
  { OrderedCollectionMember := some ⟨[]⟩ }

/-- A type cell committed to the anyURI (identifier) kind. -/
def uriIter : TypePropertyIterator :=
  { anyURIMember := some ⟨"Note"⟩ }

/-- A type cell committed to the string kind. -/
def strIter : TypePropertyIterator :=
  { hasStringMember := true, stringMember := "Note" }

/-- A type cell holding only an unknown value. -/
def unkIter : TypePropertyIterator :=
  { unknown := some (RawValue.str "x") }

/-- C2 counterexample: the IRI kind's KindIndex (-2) is not greater than the
OrderedCollection kind's (0) on a followers cell; on a type cell the
identifier kind (anyURI, 0) is neither greater than the string kind (1) nor
less than the unknown fallback (-1). -/
theorem C2_counterexample :
    ¬ (iriOnlyCell.KindIndex > ocCell.KindIndex) ∧
    ¬ (uriIter.KindIndex > strIter.KindIndex) ∧
    ¬ (uriIter.KindIndex < unkIter.KindIndex) := by
  decide

/-- C2 (amended): on FollowersProperty the committed-IRI KindIndex (-2) is
strictly LESS than every committed structured kind's index (0..3) and strictly
less than the uncommitted/unknown sentinel (-1); on TypePropertyIterator the
identifier kind coincides with anyURI (index 0), the string kind has index 1
and the fallback sentinel is -1, so the identifier kind sorts before the other
committed kind and after the fallback, and the dedicated -2 branch is
unreachable. -/
theorem C2_amended :
    (∀ q p : FollowersProperty,
      q.IsIRI = true → q.IsOrderedCollection = false → q.IsCollection = false →
      q.IsCollectionPage = false → q.IsOrderedCollectionPage = false →
      (p.IsOrderedCollection || p.IsCollection || p.IsCollectionPage ||
        p.IsOrderedCollectionPage) = true →
      q.KindIndex < p.KindIndex ∧ q.KindIndex < -1) ∧
    (∀ t : TypePropertyIterator, t.IsAnyURI = true → t.KindIndex = 0) ∧
    (∀ t : TypePropertyIterator,
      t.IsAnyURI = false → t.IsString = true → t.KindIndex = 1) ∧
    (∀ t : TypePropertyIterator,
      t.IsAnyURI = false → t.IsString = false → t.KindIndex = -1) := by
  refine ⟨?_, ?_, ?_, ?_⟩
  · intro q p hiri h1 h2 h3 h4 hp
    have hq : q.KindIndex = -2 := by
      simp [FollowersProperty.KindIndex, h1, h2, h3, h4, hiri]
    have hp0 : 0 ≤ p.KindIndex := by
      unfold FollowersProperty.KindIndex
      split_ifs <;> simp_all
    refine ⟨?_, ?_⟩ <;> rw [hq] <;> omega
  · intro t h
    simp [TypePropertyIterator.KindIndex, h]
  · intro t h1 h2
    simp [TypePropertyIterator.KindIndex, h1, h2]
  · intro t h1 h2
    simp [TypePropertyIterator.IsAnyURI] at h1
    simp [TypePropertyIterator.KindIndex, TypePropertyIterator.IsIRI,
      TypePropertyIterator.IsAnyURI, h1, h2]

/-- C2 witness: the amended ordering facts evaluated on concrete cells. -/
theorem C2_witness :
    (iriOnlyCell.KindIndex < ocCell.KindIndex ∧ iriOnlyCell.KindIndex < -1) ∧
    uriIter.KindIndex = 0 ∧ strIter.KindIndex = 1 ∧ unkIter.KindIndex = -1 :=
  ⟨C2_amended.1 iriOnlyCell ocCell (by decide) (by decide) (by decide)
      (by decide) (by decide) (by decide),
   C2_amended.2.1 uriIter (by decide),
   C2_amended.2.2.1 strIter (by decide) (by decide),
   C2_amended.2.2.2 unkIter (by decide) (by decide)⟩

/-- C3 counterexample: an uncommitted followers cell does NOT compare LessThan
an IRI-committed cell; the committed IRI cell compares LessThan the
uncommitted one instead. -/
theorem C3_counterexample :
    NewFollowersProperty.LessThan iriOnlyCell = false ∧
    iriOnlyCell.LessThan NewFollowersProperty = true := by
  decide

/-- C3 (amended): for c1 with no committed kind, LessThan(c1, c2) holds and
LessThan(c2, c1) fails when c2 commits a structured kind (indices 0..3); when
c2 commits the IRI kind (index -2) the comparison is reversed; two cells with
no committed kind compare equal (neither LessThan). -/
theorem C3_amended :
    ∀ c1 c2 : FollowersProperty, c1.HasAny = false →
      ((c2.IsOrderedCollection || c2.IsCollection || c2.IsCollectionPage ||
         c2.IsOrderedCollectionPage) = true →
        c1.LessThan c2 = true ∧ c2.LessThan c1 = false) ∧
      (c2.IsIRI = true → c2.IsOrderedCollection = false → c2.IsCollection = false →
        c2.IsCollectionPage = false → c2.IsOrderedCollectionPage = false →
        c1.LessThan c2 = false ∧ c2.LessThan c1 = true) ∧
      (c2.HasAny = false →
        c1.LessThan c2 = false ∧ c2.LessThan c1 = false) := by
  intro c1 c2 hc1
  simp only [FollowersProperty.HasAny, Bool.or_eq_false_iff] at hc1
  obtain ⟨⟨⟨⟨h1, h2⟩, h3⟩, h4⟩, h5⟩ := hc1
  have hiri1 : c1.IsIRI = false := by
    simp [FollowersProperty.IsIRI, h5]
  have hidx1 : c1.KindIndex = -1 := by
    simp [FollowersProperty.KindIndex, h1, h2, h3, h4, hiri1]
  refine ⟨?_, ?_, ?_⟩
  · intro hp
    have hp0 : 0 ≤ c2.KindIndex := by
      unfold FollowersProperty.KindIndex
      split_ifs <;> simp_all
    constructor
    · simp only [FollowersProperty.LessThan]
      have : c1.KindIndex < c2.KindIndex := by omega
      simp [this]
    · simp only [FollowersProperty.LessThan]
      have hnlt : ¬ (c2.KindIndex < c1.KindIndex) := by omega
      have hgt : c2.KindIndex > c1.KindIndex := by omega
      simp [hnlt, hgt]
  · intro hiri2 g1 g2 g3 g4
    have hidx2 : c2.KindIndex = -2 := by
      simp [FollowersProperty.KindIndex, g1, g2, g3, g4, hiri2]
    constructor
    · simp only [FollowersProperty.LessThan]
      have hnlt : ¬ (c1.KindIndex < c2.KindIndex) := by omega
      have hgt : c1.KindIndex > c2.KindIndex := by omega
      simp [hnlt, hgt]
    · simp only [FollowersProperty.LessThan]
      have : c2.KindIndex < c1.KindIndex := by omega
      simp [this]
  · intro hc2
    simp only [FollowersProperty.HasAny, Bool.or_eq_false_iff] at hc2
    obtain ⟨⟨⟨⟨g1, g2⟩, g3⟩, g4⟩, g5⟩ := hc2
    have hiri2 : c2.IsIRI = false := by
      simp [FollowersProperty.IsIRI, g5]
    have hidx2 : c2.KindIndex = -1 := by
      simp [FollowersProperty.KindIndex, g1, g2, g3, g4, hiri2]
    constructor
    · simp only [FollowersProperty.LessThan]
      have hnlt : ¬ (c1.KindIndex < c2.KindIndex) := by omega
      have hngt : ¬ (c1.KindIndex > c2.KindIndex) := by omega
      simp [hnlt, hngt, h1, h2, h3, h4, hiri1]
    · simp only [FollowersProperty.LessThan]
      have hnlt : ¬ (c2.KindIndex < c1.KindIndex) := by omega
      have hngt : ¬ (c2.KindIndex > c1.KindIndex) := by omega
      simp [hnlt, hngt, g1, g2, g3, g4, hiri2]

/-- C3 witness: the amended comparison facts evaluated on concrete cells. -/
theorem C3_witness :
    (NewFollowersProperty.LessThan ocCell = true ∧
      ocCell.LessThan NewFollowersProperty = false) ∧
    (NewFollowersProperty.LessThan iriOnlyCell = false ∧
      iriOnlyCell.LessThan NewFollowersProperty = true) ∧
    (NewFollowersProperty.LessThan NewFollowersProperty = false ∧
      NewFollowersProperty.LessThan NewFollowersProperty = false) :=
  ⟨(C3_amended NewFollowersProperty ocCell (by decide)).1 (by decide),
   (C3_amended NewFollowersProperty iriOnlyCell (by decide)).2.1 (by decide)
     (by decide) (by decide) (by decide) (by decide),
   (C3_amended NewFollowersProperty NewFollowersProperty (by decide)).2.2 (by decide)⟩

/-- C4 counterexample: after SetCollection(nil) on a fresh cell no kind
predicate is true at all, so no Is predicate of the just-set kind holds. -/
theorem C4_counterexample :
    (NewFollowersProperty.SetCollection none).IsCollection = false ∧
    (NewFollowersProperty.SetCollection none).IsOrderedCollection = false ∧
    (NewFollowersProperty.SetCollection none).IsCollectionPage = false ∧
    (NewFollowersProperty.SetCollection none).IsOrderedCollectionPage = false ∧
    (NewFollowersProperty.SetCollection none).IsIRI = false := by
  decide

/-- C4 (amended): after any Set-kind call with a NON-NIL value, exactly the Is
predicate of the kind just set is true, every other kind predicate is false,
and the unknown slot is cleared in the same operation. -/
theorem C4_amended :
    ∀ (p : FollowersProperty) (voc : OrderedCollectionValue) (vc : CollectionValue)
      (vcp : CollectionPageValue) (vocp : OrderedCollectionPageValue) (u : URL),
      ((p.SetOrderedCollection (some voc)).IsOrderedCollection = true ∧
        (p.SetOrderedCollection (some voc)).IsCollection = false ∧
        (p.SetOrderedCollection (some voc)).IsCollectionPage = false ∧
        (p.SetOrderedCollection (some voc)).IsOrderedCollectionPage = false ∧
        (p.SetOrderedCollection (some voc)).IsIRI = false ∧
        (p.SetOrderedCollection (some voc)).unknown = none) ∧
      ((p.SetCollection (some vc)).IsCollection = true ∧
        (p.SetCollection (some vc)).IsOrderedCollection = false ∧
        (p.SetCollection (some vc)).IsCollectionPage = false ∧
        (p.SetCollection (some vc)).IsOrderedCollectionPage = false ∧
        (p.SetCollection (some vc)).IsIRI = false ∧
        (p.SetCollection (some vc)).unknown = none) ∧
      ((p.SetCollectionPage (some vcp)).IsCollectionPage = true ∧
        (p.SetCollectionPage (some vcp)).IsOrderedCollection = false ∧
        (p.SetCollectionPage (some vcp)).IsCollection = false ∧
        (p.SetCollectionPage (some vcp)).IsOrderedCollectionPage = false ∧
        (p.SetCollectionPage (some vcp)).IsIRI = false ∧
        (p.SetCollectionPage (some vcp)).unknown = none) ∧
      ((p.SetOrderedCollectionPage (some vocp)).IsOrderedCollectionPage = true ∧
        (p.SetOrderedCollectionPage (some vocp)).IsOrderedCollection = false ∧
        (p.SetOrderedCollectionPage (some vocp)).IsCollection = false ∧
        (p.SetOrderedCollectionPage (some vocp)).IsCollectionPage = false ∧
        (p.SetOrderedCollectionPage (some vocp)).IsIRI = false ∧
        (p.SetOrderedCollectionPage (some vocp)).unknown = none) ∧
      ((p.SetIRI (some u)).IsIRI = true ∧
        (p.SetIRI (some u)).IsOrderedCollection = false ∧
        (p.SetIRI (some u)).IsCollection = false ∧
        (p.SetIRI (some u)).IsCollectionPage = false ∧
        (p.SetIRI (some u)).IsOrderedCollectionPage = false ∧
        (p.SetIRI (some u)).unknown = none) := by
  intro p voc vc vcp vocp u
  exact ⟨⟨rfl, rfl, rfl, rfl, rfl, rfl⟩, ⟨rfl, rfl, rfl, rfl, rfl, rfl⟩,
    ⟨rfl, rfl, rfl, rfl, rfl, rfl⟩, ⟨rfl, rfl, rfl, rfl, rfl, rfl⟩,
    ⟨rfl, rfl, rfl, rfl, rfl, rfl⟩⟩

/-- Closed form of the cell produced by deserializeTypePropertyIterator for a
given alias and wire value. -/
def mkTypeIter (al : String) (i : RawValue) : TypePropertyIterator :=
  match DeserializeAnyURI i with
  | .ok v => { vocabAlias := al, anyURIMember := some v }
  | .error _ =>
    match DeserializeString i with
    | .ok v => { vocabAlias := al, hasStringMember := true, stringMember := v }
    | .error _ => { vocabAlias := al, unknown := some i }

theorem deserializeTypePropertyIterator_eq (i : RawValue) (aliasMap : AliasMap) :
    deserializeTypePropertyIterator i aliasMap =
      .ok (some (mkTypeIter (aliasStr aliasMap) i)) := by
  cases i <;> rfl

theorem mkTypeIter_serialize (al : String) (i : RawValue) :
    (mkTypeIter al i).serialize = i := by
  cases i <;> rfl

theorem deserializeTypeItems_eq (l : List RawValue) (aliasMap : AliasMap) :
    deserializeTypeItems l aliasMap = .ok (l.map (mkTypeIter (aliasStr aliasMap))) := by
  induction l with
  | nil => rfl
  | cons x xs ih => simp [deserializeTypeItems, deserializeTypePropertyIterator_eq, ih]

theorem DeserializeTypeProperty_eq (m : RawDoc) (aliasMap : AliasMap) :
    DeserializeTypeProperty m aliasMap =
      .ok ((alookup m (resolveKey (aliasStr aliasMap) "type")).map (fun i =>
        { vocabAlias := aliasStr aliasMap,
          properties := reindexFrom 0 ((typeElems i).map (mkTypeIter (aliasStr aliasMap))) })) := by
  unfold DeserializeTypeProperty
  cases h : alookup m (resolveKey (aliasStr aliasMap) "type") with
  | none => simp [h]
  | some i => simp [h, deserializeTypeItems_eq]

theorem serialize_set_myIdx (it : TypePropertyIterator) (n : Nat) :
    TypePropertyIterator.serialize { it with myIdx := n } = it.serialize := by
  cases it
  rfl

theorem reindexFrom_map_serialize (n : Nat) (l : List TypePropertyIterator) :
    (reindexFrom n l).map TypePropertyIterator.serialize =
      l.map TypePropertyIterator.serialize := by
  induction l generalizing n with
  | nil => rfl
  | cons p rest ih => simp [reindexFrom, serialize_set_myIdx, ih]

theorem TypeProperty_Serialize_deserialized (al al2 : String) (l : List RawValue) :
    TypeProperty.Serialize
      { vocabAlias := al2, properties := reindexFrom 0 (l.map (mkTypeIter al)) } =
      collapseOne l := by
  unfold TypeProperty.Serialize
  rw [reindexFrom_map_serialize, List.map_map]
  congr 1
  induction l with
  | nil => rfl
  | cons x xs ih => simp [mkTypeIter_serialize, ih]

/-- C9: per-property kind dispatch never surfaces errors:
DeserializeFollowersProperty and deserializeTypePropertyIterator always return
a nil error; an absent property key yields a nil property with nil error; a
string value whose parse has a scheme commits the IRI kind; a value accepted by
no candidate kind and not an absolute-IRI string commits the unknown kind. -/
theorem C9_dispatch_never_errors :
    (∀ (m : RawDoc) (aliasMap : AliasMap),
      ∃ r, DeserializeFollowersProperty m aliasMap = .ok r) ∧
    (∀ (m : RawDoc) (aliasMap : AliasMap),
      alookup m (resolveKey (aliasStr aliasMap) "followers") = none →
      DeserializeFollowersProperty m aliasMap = .ok none) ∧
    (∀ (i : RawValue) (aliasMap : AliasMap),
      ∃ p, deserializeTypePropertyIterator i aliasMap = .ok (some p)) ∧
    (∀ (m : RawDoc) (aliasMap : AliasMap) (s : String),
      alookup m (resolveKey (aliasStr aliasMap) "followers") = some (RawValue.str s) →
      hasScheme s = true →
      DeserializeFollowersProperty m aliasMap =
        .ok (some { vocabAlias := aliasStr aliasMap, iri := some ⟨s⟩ })) ∧
    (∀ (m : RawDoc) (aliasMap : AliasMap) (i : RawValue),
      alookup m (resolveKey (aliasStr aliasMap) "followers") = some i →
      followersIRICandidate i = none →
      followersMapCandidate i aliasMap (aliasStr aliasMap) = none →
      DeserializeFollowersProperty m aliasMap =
        .ok (some { vocabAlias := aliasStr aliasMap, unknown := some i })) := by
  refine ⟨?_, ?_, ?_, ?_, ?_⟩
  · intro m aliasMap
    cases h : alookup m (resolveKey (aliasStr aliasMap) "followers") with
    | none => exact ⟨none, by simp [DeserializeFollowersProperty, h]⟩
    | some i =>
      cases h2 : followersIRICandidate i with
      | some u =>
        exact ⟨some { vocabAlias := aliasStr aliasMap, iri := some u },
          by simp [DeserializeFollowersProperty, h, h2]⟩
      | none =>
        cases h3 : followersMapCandidate i aliasMap (aliasStr aliasMap) with
        | some t =>
          exact ⟨some t, by simp [DeserializeFollowersProperty, h, h2, h3]⟩
        | none =>
          exact ⟨some { vocabAlias := aliasStr aliasMap, unknown := some i },
            by simp [DeserializeFollowersProperty, h, h2, h3]⟩
  · intro m aliasMap h
    simp [DeserializeFollowersProperty, h]
  · intro i aliasMap
    exact ⟨_, deserializeTypePropertyIterator_eq i aliasMap⟩
  · intro m aliasMap s h hs
    simp [DeserializeFollowersProperty, h, followersIRICandidate, hs]
  · intro m aliasMap i h h2 h3
    simp [DeserializeFollowersProperty, h, h2, h3]

/-- C9 witness: the absent-key, IRI-commit and unknown-commit conclusions
evaluated on concrete documents. -/
theorem C9_witness :
    DeserializeFollowersProperty [] [] = .ok none ∧
    DeserializeFollowersProperty [("followers", RawValue.str "http://example.org/c")] [] =
      .ok (some { vocabAlias := "", iri := some ⟨"http://example.org/c"⟩ }) ∧
    DeserializeFollowersProperty [("followers", RawValue.int 3)] [] =
      .ok (some { vocabAlias := "", unknown := some (RawValue.int 3) }) :=
  ⟨C9_dispatch_never_errors.2.1 [] [] (by decide),
   C9_dispatch_never_errors.2.2.2.1 [("followers", RawValue.str "http://example.org/c")]
     [] "http://example.org/c" (by decide) (by decide),
   C9_dispatch_never_errors.2.2.2.2 [("followers", RawValue.int 3)] [] (RawValue.int 3)
     (by decide) (by decide) (by decide)⟩

/-- C5: DeserializeOrderedCollectionPage fails with missing-type when the map
has no "type" key; with type-mismatch when the "type" value is a string that,
after alias stripping, is not "OrderedCollectionPage", or an array none of
whose string elements strips to "OrderedCollectionPage"; with malformed-type
when the value is neither a string nor an array; and succeeds whenever the
(possibly array-valued) "type" contains "OrderedCollectionPage". -/
theorem C5_type_validation :
    ∀ (m : RawDoc) (aliasMap : AliasMap),
      (alookup m "type" = none →
        DeserializeOrderedCollectionPage m aliasMap = .error Err.missingType) ∧
      (∀ s, alookup m "type" = some (RawValue.str s) →
        trimPref s (aliasColon aliasMap) ≠ "OrderedCollectionPage" →
        DeserializeOrderedCollectionPage m aliasMap = .error Err.typeMismatch) ∧
      (∀ xs, alookup m "type" = some (RawValue.arr xs) →
        (∀ e ∈ xs, ∀ s, e = RawValue.str s →
          trimPref s (aliasColon aliasMap) ≠ "OrderedCollectionPage") →
        DeserializeOrderedCollectionPage m aliasMap = .error Err.typeMismatch) ∧
      (∀ v, alookup m "type" = some v → (∀ s, v ≠ RawValue.str s) →
        (∀ xs, v ≠ RawValue.arr xs) →
        DeserializeOrderedCollectionPage m aliasMap = .error Err.malformedType) ∧
      ((∃ s, alookup m "type" = some (RawValue.str s) ∧
          trimPref s (aliasColon aliasMap) = "OrderedCollectionPage") ∨
        (∃ xs s, alookup m "type" = some (RawValue.arr xs) ∧
          RawValue.str s ∈ xs ∧
          trimPref s (aliasColon aliasMap) = "OrderedCollectionPage") →
        ∃ e, DeserializeOrderedCollectionPage m aliasMap = .ok e) := by
  intro m aliasMap
  refine ⟨?_, ?_, ?_, ?_, ?_⟩
  · intro h
    simp [DeserializeOrderedCollectionPage, h, validateType]
  · intro s h hne
    simp [DeserializeOrderedCollectionPage, h, validateType, hne]
  · intro xs h hall
    have hany : (xs.any (fun elemVal =>
        match elemVal with
        | RawValue.str s => trimPref s (aliasColon aliasMap) == "OrderedCollectionPage"
        | _ => false)) = false := by
      rw [List.any_eq_false]
      intro e he
      cases e with
      | str s =>
        exact fun hh => hall (RawValue.str s) he s rfl (eq_of_beq hh)
      | int n => simp
      | bool b => simp
      | null => simp
      | arr l => simp
      | obj l => simp
    simp [DeserializeOrderedCollectionPage, h, validateType, hany]
  · intro v h hs hxs
    cases v with
    | str s => exact absurd rfl (hs s)
    | arr l => exact absurd rfl (hxs l)
    | int n => simp [DeserializeOrderedCollectionPage, h, validateType]
    | bool b => simp [DeserializeOrderedCollectionPage, h, validateType]
    | null => simp [DeserializeOrderedCollectionPage, h, validateType]
    | obj l => simp [DeserializeOrderedCollectionPage, h, validateType]
  · intro hok
    rcases hok with ⟨s, hl, ht⟩ | ⟨xs, s, hl, hmem, ht⟩
    · have hv : validateType (aliasColon aliasMap) "OrderedCollectionPage"
          (alookup m "type") = none := by
        rw [hl]
        simp [validateType, ht]
      unfold DeserializeOrderedCollectionPage
      rw [hv, DeserializeTypeProperty_eq]
      exact ⟨_, rfl⟩
    · have hv : validateType (aliasColon aliasMap) "OrderedCollectionPage"
          (alookup m "type") = none := by
        rw [hl]
        simp only [validateType]
        rw [if_pos]
        rw [List.any_eq_true]
        exact ⟨RawValue.str s, hmem, by simp [ht]⟩
      unfold DeserializeOrderedCollectionPage
      rw [hv, DeserializeTypeProperty_eq]
      exact ⟨_, rfl⟩

/-- C5 witness: each validation outcome evaluated on a concrete document. -/
theorem C5_witness :
    DeserializeOrderedCollectionPage [("foo", RawValue.int 1)] [] = .error Err.missingType ∧
    DeserializeOrderedCollectionPage [("type", RawValue.str "Foo")] [] = .error Err.typeMismatch ∧
    DeserializeOrderedCollectionPage [("type", RawValue.arr [RawValue.str "Foo", RawValue.int 1])] []
      = .error Err.typeMismatch ∧
    DeserializeOrderedCollectionPage [("type", RawValue.int 2)] [] = .error Err.malformedType ∧
    ∃ e, DeserializeOrderedCollectionPage
      [("type", RawValue.arr [RawValue.str "Note", RawValue.str "OrderedCollectionPage"])] [] = .ok e :=
  ⟨(C5_type_validation [("foo", RawValue.int 1)] []).1 (by decide),
   (C5_type_validation [("type", RawValue.str "Foo")] []).2.1 "Foo" (by decide) (by decide),
   (C5_type_validation [("type", RawValue.arr [RawValue.str "Foo", RawValue.int 1])] []).2.2.1
     [RawValue.str "Foo", RawValue.int 1] (by decide)
     (by
       rintro e he s rfl hc
       simp only [List.mem_cons, List.not_mem_nil, or_false] at he
       rcases he with he | he
       · rw [RawValue.str.injEq] at he
         subst he
         revert hc
         decide
       · exact RawValue.noConfusion he),
   (C5_type_validation [("type", RawValue.int 2)] []).2.2.2.1 (RawValue.int 2)
     (by decide) (fun s h => RawValue.noConfusion h) (fun xs h => RawValue.noConfusion h),
   (C5_type_validation
     [("type", RawValue.arr [RawValue.str "Note", RawValue.str "OrderedCollectionPage"])] []).2.2.2.2
     (Or.inr ⟨[RawValue.str "Note", RawValue.str "OrderedCollectionPage"],
       "OrderedCollectionPage", by decide, by decide, by decide⟩)⟩

instance {ε α : Type} [DecidableEq ε] [DecidableEq α] : DecidableEq (Except ε α) := fun a b =>
  match a, b with
  | .ok x, .ok y =>
    if h : x = y then isTrue (by rw [h]) else isFalse (fun hh => h (Except.ok.inj hh))
  | .error x, .error y =>
    if h : x = y then isTrue (by rw [h]) else isFalse (fun hh => h (Except.error.inj hh))
  | .ok _, .error _ => isFalse (fun hh => Except.noConfusion hh)
  | .error _, .ok _ => isFalse (fun hh => Except.noConfusion hh)

/-- The values whose list/single dispatch is unambiguous: everything except a
wire list. -/
theorem typeElems_of_nonarr (x : RawValue) (hx : ∀ ys, x ≠ RawValue.arr ys) :
    typeElems x = [x] := by
  cases x with
  | arr l => exact absurd rfl (hx l)
  | str s => rfl
  | int n => rfl
  | bool b => rfl
  | null => rfl
  | obj l => rfl

/-- C7 counterexample: for the list-valued x = [] the documents type: x and
type: [x] deserialize differently (x is spliced element-wise, [x] makes one
unknown-kind cell), refuting the claim for arbitrary raw values. -/
theorem C7_counterexample :
    DeserializeTypeProperty [("type", RawValue.arr [])] [] ≠
      DeserializeTypeProperty [("type", RawValue.arr [RawValue.arr []])] [] := by
  decide

/-- C7 (amended): for every NON-LIST raw value x the documents type: x and
type: [x] deserialize to the same TypeProperty; and Serialize on a
TypeProperty of length exactly one returns the single cell's raw value, not a
one-element list. -/
theorem C7_single_value_normalization :
    (∀ (x : RawValue) (aliasMap : AliasMap), (∀ ys, x ≠ RawValue.arr ys) →
      DeserializeTypeProperty [("type", x)] aliasMap =
        DeserializeTypeProperty [("type", RawValue.arr [x])] aliasMap) ∧
    (∀ (tp : TypeProperty) (e : TypePropertyIterator), tp.properties = [e] →
      tp.Serialize = e.serialize) := by
  constructor
  · intro x aliasMap hx
    rw [DeserializeTypeProperty_eq, DeserializeTypeProperty_eq]
    simp only [alookup]
    by_cases hk : ("type" : String) = resolveKey (aliasStr aliasMap) "type"
    · rw [if_pos hk, if_pos hk]
      simp only [Option.map_some']
      rw [typeElems_of_nonarr x hx]
      rfl
    · rw [if_neg hk, if_neg hk]
  · intro tp e h
    unfold TypeProperty.Serialize
    rw [h]
    rfl

/-- C7 witness: the normalization equalities evaluated on a concrete value and
a concrete one-cell property. -/
theorem C7_witness :
    DeserializeTypeProperty [("type", RawValue.str "Note")] [] =
      DeserializeTypeProperty [("type", RawValue.arr [RawValue.str "Note"])] [] ∧
    TypeProperty.Serialize { vocabAlias := "", properties := [strIter] } = strIter.serialize :=
  ⟨C7_single_value_normalization.1 (RawValue.str "Note") []
     (fun _ h => RawValue.noConfusion h),
   C7_single_value_normalization.2 { vocabAlias := "", properties := [strIter] } strIter rfl⟩

/-- The alias table of the claim: the ActivityStreams namespace registered
under the short name "as". -/
def asAliasMap : AliasMap :=
  [("https://www.w3.org/TR/activitystreams-vocabulary", "as")]

/-- True on a successful Go-style (value, nil-error) result. -/
def exceptIsOk {ε α : Type} : Except ε α → Bool
  | .ok _ => true
  | .error _ => false

/-- Equality of followers cells on everything except the stored alias string. -/
def FollowersProperty.sameValues (a b : FollowersProperty) : Prop :=
  a.OrderedCollectionMember = b.OrderedCollectionMember ∧
  a.CollectionMember = b.CollectionMember ∧
  a.CollectionPageMember = b.CollectionPageMember ∧
  a.OrderedCollectionPageMember = b.OrderedCollectionPageMember ∧
  a.unknown = b.unknown ∧
  a.iri = b.iri

/-- Same deserialization outcome for the followers property up to the alias
string kept inside the cell. -/
def sameFollowersResult :
    Except Err (Option FollowersProperty) → Except Err (Option FollowersProperty) → Prop
  | .ok none, .ok none => True
  | .ok (some a), .ok (some b) => a.sameValues b
  | _, _ => False

/-- Equality of type cells on everything except the stored alias string. -/
def TypePropertyIterator.sameValues (a b : TypePropertyIterator) : Prop :=
  a.anyURIMember = b.anyURIMember ∧
  a.stringMember = b.stringMember ∧
  a.hasStringMember = b.hasStringMember ∧
  a.unknown = b.unknown ∧
  a.myIdx = b.myIdx

/-- Same deserialization outcome for the type property up to alias strings. -/
def sameTypeResult :
    Except Err (Option TypeProperty) → Except Err (Option TypeProperty) → Prop
  | .ok none, .ok none => True
  | .ok (some a), .ok (some b) =>
    List.Forall₂ TypePropertyIterator.sameValues a.properties b.properties
  | _, _ => False

/-- Closed form of DeserializeFollowersProperty on a one-key document holding
the resolved followers key. -/
theorem DeserializeFollowersProperty_single (aliasMap : AliasMap) (v : RawValue) :
    DeserializeFollowersProperty [(resolveKey (aliasStr aliasMap) "followers", v)] aliasMap =
      (match followersIRICandidate v with
       | some u => .ok (some { vocabAlias := aliasStr aliasMap, iri := some u })
       | none =>
         match followersMapCandidate v aliasMap (aliasStr aliasMap) with
         | some t => .ok (some t)
         | none => .ok (some { vocabAlias := aliasStr aliasMap, unknown := some v })) := by
  unfold DeserializeFollowersProperty
  simp [alookup]

theorem reindexFrom_map_sameValues (a1 a2 : String) (l : List RawValue) :
    ∀ n, List.Forall₂ TypePropertyIterator.sameValues
      (reindexFrom n (l.map (mkTypeIter a1)))
      (reindexFrom n (l.map (mkTypeIter a2))) := by
  induction l with
  | nil => intro n; exact List.Forall₂.nil
  | cons x xs ih =>
    intro n
    refine List.Forall₂.cons ?_ (ih (n + 1))
    cases x <;> simp [mkTypeIter, TypePropertyIterator.sameValues, DeserializeAnyURI,
      DeserializeString]

/-- C8 counterexample: with the alias table {AS namespace ↦ "as"}, the
document whose keys are written with the "as:" prefix fails entity
deserialization with missing-type (the "type" key is looked up literally),
while the unprefixed document succeeds — so the two do not deserialize
identically. -/
theorem C8_counterexample :
    DeserializeOrderedCollectionPage
      [("as:type", RawValue.str "as:OrderedCollectionPage")] asAliasMap
      = .error Err.missingType ∧
    exceptIsOk (DeserializeOrderedCollectionPage
      [("type", RawValue.str "OrderedCollectionPage")] []) = true := by
  decide

/-- C8 (amended): with the alias table {AS namespace ↦ "as"}, the
property-level deserializers are alias-invariant: DeserializeFollowersProperty
on the "as:followers" key (when the nested kind parsers do not themselves
depend on the alias table) and DeserializeTypeProperty on the "as:type" key
commit the same values as the unprefixed document without aliases (only the
stored alias string differs); and DeserializeOrderedCollectionPage accepts an
"as:"-prefixed type VALUE — but it requires the literal unprefixed "type" key,
so a fully prefixed document is not handled identically at the entity level. -/
theorem C8_alias_handling :
    (∀ v : RawValue,
      (∀ kvs, v = RawValue.obj kvs →
        DeserializeOrderedCollectionValue kvs asAliasMap =
          DeserializeOrderedCollectionValue kvs [] ∧
        DeserializeCollectionValue kvs asAliasMap = DeserializeCollectionValue kvs [] ∧
        DeserializeCollectionPageValue kvs asAliasMap =
          DeserializeCollectionPageValue kvs [] ∧
        DeserializeOrderedCollectionPageValue kvs asAliasMap =
          DeserializeOrderedCollectionPageValue kvs []) →
      sameFollowersResult
        (DeserializeFollowersProperty [("as:followers", v)] asAliasMap)
        (DeserializeFollowersProperty [("followers", v)] [])) ∧
    (∀ x : RawValue,
      sameTypeResult
        (DeserializeTypeProperty [("as:type", x)] asAliasMap)
        (DeserializeTypeProperty [("type", x)] [])) ∧
    (∃ e, DeserializeOrderedCollectionPage
      [("type", RawValue.str "as:OrderedCollectionPage")] asAliasMap = .ok e) := by
  have has : aliasStr asAliasMap = "as" := by decide
  refine ⟨?_, ?_, ?_⟩
  · intro v hsub
    have h1 : ("as:followers" : String) = resolveKey (aliasStr asAliasMap) "followers" := by
      decide
    have h2 : ("followers" : String) = resolveKey (aliasStr ([] : AliasMap)) "followers" := by
      decide
    rw [h2, h1, DeserializeFollowersProperty_single, DeserializeFollowersProperty_single]
    cases hI : followersIRICandidate v with
    | some u => simp [sameFollowersResult, FollowersProperty.sameValues]
    | none =>
      cases v with
      | obj kvs =>
        obtain ⟨e1, e2, e3, e4⟩ := hsub kvs rfl
        simp only [followersMapCandidate, e1, e2, e3, e4]
        cases DeserializeOrderedCollectionValue kvs [] with
        | ok w => simp [sameFollowersResult, FollowersProperty.sameValues]
        | error _ =>
          cases DeserializeCollectionValue kvs [] with
          | ok w => simp [sameFollowersResult, FollowersProperty.sameValues]
          | error _ =>
            cases DeserializeCollectionPageValue kvs [] with
            | ok w => simp [sameFollowersResult, FollowersProperty.sameValues]
            | error _ =>
              cases DeserializeOrderedCollectionPageValue kvs [] with
              | ok w => simp [sameFollowersResult, FollowersProperty.sameValues]
              | error _ => simp [sameFollowersResult, FollowersProperty.sameValues]
      | str s => simp [followersMapCandidate, sameFollowersResult, FollowersProperty.sameValues]
      | int n => simp [followersMapCandidate, sameFollowersResult, FollowersProperty.sameValues]
      | bool b => simp [followersMapCandidate, sameFollowersResult, FollowersProperty.sameValues]
      | null => simp [followersMapCandidate, sameFollowersResult, FollowersProperty.sameValues]
      | arr l => simp [followersMapCandidate, sameFollowersResult, FollowersProperty.sameValues]
  · intro x
    have h1 : ("as:type" : String) = resolveKey (aliasStr asAliasMap) "type" := by decide
    have h2 : ("type" : String) = resolveKey (aliasStr ([] : AliasMap)) "type" := by decide
    rw [h2, h1, DeserializeTypeProperty_eq, DeserializeTypeProperty_eq]
    have hx1 : alookup [(resolveKey (aliasStr asAliasMap) "type", x)]
        (resolveKey (aliasStr asAliasMap) "type") = some x := by simp [alookup]
    have hx2 : alookup [(resolveKey (aliasStr ([] : AliasMap)) "type", x)]
        (resolveKey (aliasStr ([] : AliasMap)) "type") = some x := by simp [alookup]
    rw [hx1, hx2]
    simp only [Option.map_some']
    exact reindexFrom_map_sameValues (aliasStr asAliasMap) (aliasStr []) (typeElems x) 0
  · have hv : validateType (aliasColon asAliasMap) "OrderedCollectionPage"
        (alookup [("type", RawValue.str "as:OrderedCollectionPage")] "type") = none := by
      decide
    unfold DeserializeOrderedCollectionPage
    rw [hv, DeserializeTypeProperty_eq]
    exact ⟨_, rfl⟩

/-- C8 witness: the alias-invariance conclusions evaluated on concrete
documents. -/
theorem C8_witness :
    sameFollowersResult
      (DeserializeFollowersProperty [("as:followers", RawValue.str "http://example.org/f")] asAliasMap)
      (DeserializeFollowersProperty [("followers", RawValue.str "http://example.org/f")] []) ∧
    sameTypeResult
      (DeserializeTypeProperty [("as:type", RawValue.str "Note")] asAliasMap)
      (DeserializeTypeProperty [("type", RawValue.str "Note")] []) :=
  ⟨C8_alias_handling.1 (RawValue.str "http://example.org/f")
     (fun _ h => RawValue.noConfusion h),
   C8_alias_handling.2.1 (RawValue.str "Note")⟩

theorem insertUnknowns_pres (us : List (String × RawValue)) (m : RawDoc)
    (k : String) (w : RawValue) (h : alookup m k = some w) :
    alookup (insertUnknowns us m) k = some w := by
  induction us generalizing m with
  | nil => exact h
  | cons p rest ih =>
    cases p with
    | mk k0 v0 =>
      by_cases hc : containsKey m k0
      · simpa [insertUnknowns, hc] using ih m h
      · have hk0 : k0 ≠ k := by
          intro hh
          subst hh
          simp [containsKey, h] at hc
        have : alookup (mapInsert m k0 v0) k = some w := by
          rw [alookup_mapInsert_ne m k0 k v0 (Ne.symm hk0)]
          exact h
        simpa [insertUnknowns, hc] using ih (mapInsert m k0 v0) this

theorem insertUnknowns_absent (us : List (String × RawValue)) (m : RawDoc)
    (k : String) (h : alookup m k = none) :
    alookup (insertUnknowns us m) k = alookup us k := by
  induction us generalizing m with
  | nil => simp [insertUnknowns, h, alookup]
  | cons p rest ih =>
    cases p with
    | mk k0 v0 =>
      by_cases hk : k0 = k
      · subst hk
        have hc : containsKey m k0 = false := by simp [containsKey, h]
        have hins : alookup (mapInsert m k0 v0) k0 = some v0 :=
          alookup_mapInsert_self m k0 v0
        simp [insertUnknowns, hc, alookup, insertUnknowns_pres rest _ _ _ hins]
      · by_cases hc : containsKey m k0
        · simp [insertUnknowns, hc, alookup, hk, ih m h]
        · have hne : alookup (mapInsert m k0 v0) k = none := by
            rw [alookup_mapInsert_ne m k0 k v0 (Ne.symm hk)]
            exact h
          simp [insertUnknowns, hc, alookup, hk, ih _ hne]

theorem serializeGenerics_notmem (ps : List (String × RawValue)) (m : RawDoc)
    (k : String) (h : ∀ p ∈ ps, p.1 ≠ k) :
    alookup (serializeGenerics ps m) k = alookup m k := by
  induction ps generalizing m with
  | nil => rfl
  | cons p rest ih =>
    cases p with
    | mk n v =>
      have hn : n ≠ k := h (n, v) (List.mem_cons_self _ _)
      have hrest : ∀ p ∈ rest, p.1 ≠ k := fun p hp => h p (List.mem_cons_of_mem _ hp)
      simp only [serializeGenerics]
      rw [ih _ hrest]
      by_cases hv : v = RawValue.null
      · rw [if_pos hv]
      · rw [if_neg hv, alookup_mapInsert_ne m n k v (Ne.symm hn)]

/-- Closed form of a failed DeserializeOrderedCollectionPage. -/
theorem DeserializeOrderedCollectionPage_error (m : RawDoc) (aliasMap : AliasMap)
    (err : Err)
    (hv : validateType (aliasColon aliasMap) "OrderedCollectionPage" (alookup m "type")
      = some err) :
    DeserializeOrderedCollectionPage m aliasMap = .error err := by
  unfold DeserializeOrderedCollectionPage
  rw [hv]

/-- Closed form of a successful DeserializeOrderedCollectionPage. -/
theorem DeserializeOrderedCollectionPage_ok (m : RawDoc) (aliasMap : AliasMap)
    (hv : validateType (aliasColon aliasMap) "OrderedCollectionPage" (alookup m "type")
      = none) :
    DeserializeOrderedCollectionPage m aliasMap = .ok
      { knownProps := deserializeGenerics m (aliasStr aliasMap)
        TypeMember := (alookup m (resolveKey (aliasStr aliasMap) "type")).map (fun i =>
          { vocabAlias := aliasStr aliasMap
            properties := reindexFrom 0 ((typeElems i).map (mkTypeIter (aliasStr aliasMap))) })
        vocabAlias := aliasStr aliasMap
        unknown := m.filter (fun p => !(exclusionList.contains p.1)) } := by
  unfold DeserializeOrderedCollectionPage
  rw [hv, DeserializeTypeProperty_eq]

/-- C6: every wire key outside the fixed exclusion list (which contains
"contentMap", "nameMap", "summaryMap" and "type") lands verbatim in the
extension bag of the deserialized entity; every extension-bag entry whose key
is not an already-emitted known-property key reappears verbatim in the output
of Serialize; and a colliding extension key is dropped, never overwriting the
known property's value. -/
theorem C6_extension_preservation :
    (∀ (m : RawDoc) (aliasMap : AliasMap) (e : OrderedCollectionPage),
      DeserializeOrderedCollectionPage m aliasMap = .ok e →
      ∀ (k : String) (v : RawValue), (k, v) ∈ m → k ∉ exclusionList →
        (k, v) ∈ e.unknown) ∧
    (∀ (e : OrderedCollectionPage) (k : String) (v : RawValue),
      alookup e.unknown k = some v →
      (alookup (serializeKnownPart e) k = none →
        alookup e.Serialize k = some v) ∧
      (∀ w, alookup (serializeKnownPart e) k = some w →
        alookup e.Serialize k = some w)) ∧
    ("contentMap" ∈ exclusionList ∧ "nameMap" ∈ exclusionList ∧
      "summaryMap" ∈ exclusionList ∧ "type" ∈ exclusionList) := by
  refine ⟨?_, ?_, by decide⟩
  · intro m aliasMap e hok k v hmem hnot
    cases hv : validateType (aliasColon aliasMap) "OrderedCollectionPage"
        (alookup m "type") with
    | some err =>
      rw [DeserializeOrderedCollectionPage_error m aliasMap err hv] at hok
      exact absurd hok (by simp)
    | none =>
      rw [DeserializeOrderedCollectionPage_ok m aliasMap hv] at hok
      have he := Except.ok.inj hok
      rw [← he]
      simp only [List.mem_filter]
      refine ⟨hmem, ?_⟩
      simpa using hnot
  · intro e k v h
    constructor
    · intro hn
      unfold OrderedCollectionPage.Serialize
      rw [insertUnknowns_absent e.unknown (serializeKnownPart e) k hn]
      exact h
    · intro w hw
      exact insertUnknowns_pres e.unknown (serializeKnownPart e) k w hw

/-- A document with one extension key used to witness C6. -/
def c6doc : RawDoc :=
  [("type", RawValue.str "OrderedCollectionPage"), ("ext", RawValue.int 7)]

/-- The entity c6doc deserializes to. -/
def c6entity : OrderedCollectionPage :=
  { knownProps := []
    TypeMember := some
      { vocabAlias := ""
        properties := [{ anyURIMember := some ⟨"OrderedCollectionPage"⟩ }] }
    vocabAlias := ""
    unknown := [("ext", RawValue.int 7)] }

/-- An entity whose extension bag collides with the emitted "type" key. -/
def c6collide : OrderedCollectionPage :=
  { knownProps := []
    TypeMember := none
    vocabAlias := ""
    unknown := [("type", RawValue.int 9)] }

/-- C6 witness: the extension-bag facts evaluated on concrete entities. -/
theorem C6_witness :
    ("ext", RawValue.int 7) ∈ c6entity.unknown ∧
    alookup (OrderedCollectionPage.Serialize c6entity) "ext" = some (RawValue.int 7) ∧
    alookup (OrderedCollectionPage.Serialize c6collide) "type" =
      some (RawValue.str "OrderedCollectionPage") :=
  ⟨C6_extension_preservation.1 c6doc [] c6entity (by decide) "ext" (RawValue.int 7)
     (by decide) (by decide),
   (C6_extension_preservation.2.1 c6entity "ext" (RawValue.int 7) (by decide)).1 (by decide),
   (C6_extension_preservation.2.1 c6collide "type" (RawValue.int 9) (by decide)).2
     (RawValue.str "OrderedCollectionPage") (by decide)⟩

/-- C10: Serialize writes the hardcoded alias-qualified type name under "type"
first, but it is overwritten by the serialization of the entity's type
property whenever that property is non-nil and serializes to a non-nil value;
only when the type property is nil does the hardcoded name survive. -/
theorem C10_type_overwrite :
    (∀ (e : OrderedCollectionPage) (tp : TypeProperty),
      e.TypeMember = some tp → tp.Serialize ≠ RawValue.null →
      alookup e.Serialize "type" = some tp.Serialize) ∧
    (∀ e : OrderedCollectionPage, e.TypeMember = none →
      (∀ p ∈ e.knownProps, p.1 ≠ "type") →
      alookup e.Serialize "type" =
        some (RawValue.str (if e.vocabAlias.length > 0 then
          e.vocabAlias ++ ":" ++ "OrderedCollectionPage" else "OrderedCollectionPage"))) := by
  constructor
  · intro e tp h hnn
    simp only [OrderedCollectionPage.Serialize, serializeKnownPart, h, if_neg hnn]
    exact insertUnknowns_pres _ _ _ _ (alookup_mapInsert_self _ _ _)
  · intro e h hk
    simp only [OrderedCollectionPage.Serialize, serializeKnownPart, h]
    exact insertUnknowns_pres _ _ _ _
      (by rw [serializeGenerics_notmem _ _ _ hk]; exact alookup_mapInsert_self _ _ _)

/-- C10 witness: on a freshly constructed entity the emitted "type" value is
the one stored in the type property. -/
theorem C10_witness :
    NewOrderedCollectionPage.TypeMember =
      some (NewTypeProperty.AppendString "OrderedCollectionPage") ∧
    alookup NewOrderedCollectionPage.Serialize "type" =
      some ((NewTypeProperty.AppendString "OrderedCollectionPage").Serialize) :=
  ⟨rfl, C10_type_overwrite.1 NewOrderedCollectionPage _ rfl (by decide)⟩

theorem serializeGenerics_alookup (ps : List (String × RawValue)) (m : RawDoc)
    (k : String) (hnodup : (ps.map Prod.fst).Nodup)
    (hnn : ∀ p ∈ ps, p.2 ≠ RawValue.null) :
    alookup (serializeGenerics ps m) k =
      (match alookup ps k with
       | some v => some v
       | none => alookup m k) := by
  induction ps generalizing m with
  | nil => simp [serializeGenerics, alookup]
  | cons p rest ih =>
    cases p with
    | mk n v =>
      have hv : v ≠ RawValue.null := hnn (n, v) (List.mem_cons_self _ _)
      have hrestnn : ∀ p ∈ rest, p.2 ≠ RawValue.null :=
        fun p hp => hnn p (List.mem_cons_of_mem _ hp)
      have hnodup2 :=
        List.nodup_cons.mp (show (n :: rest.map Prod.fst).Nodup from hnodup)
      simp only [serializeGenerics, if_neg hv]
      by_cases hk : n = k
      · subst hk
        have hrest : ∀ p ∈ rest, p.1 ≠ n := by
          intro p hp hh
          exact hnodup2.1 (hh ▸ List.mem_map_of_mem Prod.fst hp)
        rw [serializeGenerics_notmem rest _ n hrest, alookup_mapInsert_self]
        simp [alookup]
      · rw [ih _ hnodup2.2 hrestnn, alookup_mapInsert_ne m n k v (Ne.symm hk)]
        simp [alookup, hk]

theorem dgAux_keys (names : List String) (m : RawDoc) (p : String × RawValue)
    (hp : p ∈ names.filterMap (fun n => (alookup m n).map (fun v => (n, v)))) :
    p.1 ∈ names ∧ alookup m p.1 = some p.2 := by
  rcases List.mem_filterMap.mp hp with ⟨n, hn, hmap⟩
  rcases Option.map_eq_some'.mp hmap with ⟨v, hv, hpv⟩
  cases hpv
  exact ⟨hn, hv⟩

theorem dgAux_none (names : List String) (m : RawDoc) (k : String)
    (hk : k ∉ names) :
    alookup (names.filterMap (fun n => (alookup m n).map (fun v => (n, v)))) k = none := by
  apply (alookup_eq_none_iff _ _).mpr
  intro p hp hh
  exact hk (hh ▸ (dgAux_keys names m p hp).1)

theorem dgAux_alookup (names : List String) (m : RawDoc) (k : String)
    (hn : names.Nodup) (hk : k ∈ names) :
    alookup (names.filterMap (fun n => (alookup m n).map (fun v => (n, v)))) k
      = alookup m k := by
  induction names with
  | nil => cases hk
  | cons n rest ih =>
    have hn2 := List.nodup_cons.mp hn
    rcases List.mem_cons.mp hk with rfl | hk2
    · cases hm : alookup m k with
      | none =>
        simp only [List.filterMap_cons, hm, Option.map_none']
        exact dgAux_none rest m k hn2.1
      | some v =>
        simp [List.filterMap_cons, hm, alookup]
    · have hkn : k ≠ n := fun hh => hn2.1 (hh ▸ hk2)
      cases hm : alookup m n with
      | none =>
        simp only [List.filterMap_cons, hm, Option.map_none']
        exact ih hn2.2 hk2
      | some v =>
        simp only [List.filterMap_cons, hm, Option.map_some', alookup,
          if_neg (Ne.symm hkn)]
        exact ih hn2.2 hk2

theorem dgAux_keys_nodup (names : List String) (m : RawDoc) (hn : names.Nodup) :
    ((names.filterMap (fun n => (alookup m n).map (fun v => (n, v)))).map Prod.fst).Nodup := by
  induction names with
  | nil => simp
  | cons n rest ih =>
    have hn2 := List.nodup_cons.mp hn
    cases hm : alookup m n with
    | none =>
      simp only [List.filterMap_cons, hm, Option.map_none']
      exact ih hn2.2
    | some v =>
      simp only [List.filterMap_cons, hm, Option.map_some', List.map_cons]
      refine List.nodup_cons.mpr ⟨?_, ih hn2.2⟩
      intro hmem
      rcases List.mem_map.mp hmem with ⟨p, hp, hfst⟩
      exact hn2.1 (hfst ▸ (dgAux_keys rest m p hp).1)

/-- Two wire values agree up to the single-value/one-element-list
normalization rule. -/
def normEquiv (a b : RawValue) : Bool :=
  a == b || a == RawValue.arr [b] || b == RawValue.arr [a]

/-- Lift of `normEquiv` to optional map entries: both absent, or both present
and normalization-equivalent. -/
def optNormEquiv : Option RawValue → Option RawValue → Bool
  | some a, some b => normEquiv a b
  | none, none => true
  | _, _ => false

theorem optNormEquiv_refl (o : Option RawValue) : optNormEquiv o o = true := by
  cases o with
  | none => rfl
  | some a => simp [optNormEquiv, normEquiv]

theorem genericNames_nodup : genericNames.Nodup := by decide

theorem exclusionList_cases : ∀ y ∈ exclusionList, y = "type" ∨ y ∈ genericNames ∨
    y = "contentMap" ∨ y = "nameMap" ∨ y = "summaryMap" := by decide

theorem deserializeGenerics_nil_alias (m : RawDoc) :
    deserializeGenerics m (aliasStr ([] : AliasMap)) =
      genericNames.filterMap (fun n => (alookup m n).map (fun v => (n, v))) := rfl

/-- Closed form of serializeKnownPart when the type property is set and
serializes to a non-nil value. -/
theorem serializeKnownPart_eq (kp : List (String × RawValue)) (tp : TypeProperty)
    (al : String) (u : List (String × RawValue)) (hnn : tp.Serialize ≠ RawValue.null) :
    serializeKnownPart
      { knownProps := kp, TypeMember := some tp, vocabAlias := al, unknown := u } =
      mapInsert
        (serializeGenerics kp (mapInsert [] "type" (RawValue.str
          (if al.length > 0 then al ++ ":" ++ "OrderedCollectionPage"
           else "OrderedCollectionPage"))))
        "type" tp.Serialize := by
  simp only [serializeKnownPart]
  rw [if_neg hnn]

/-- C1: round trip. Every document whose "type" passes validation, and which
carries no language-map keys ("contentMap"/"nameMap"/"summaryMap", owned by
property packages outside src/) and no null values (a nil wire value is
dropped by the `i != nil` guards of Serialize), deserializes successfully, and
re-serializing the entity reproduces the document key-for-key up to the
single-value/one-element-list normalization of the "type" value; no key or
value is lost or altered. Stated for the empty alias table. -/
theorem C1_roundtrip (d : RawDoc)
    (hv : validateType (aliasColon []) "OrderedCollectionPage" (alookup d "type") = none)
    (hmv : ∀ p ∈ d, p.1 ≠ "contentMap" ∧ p.1 ≠ "nameMap" ∧ p.1 ≠ "summaryMap")
    (hnn : ∀ p ∈ d, p.2 ≠ RawValue.null) :
    ∃ e, DeserializeOrderedCollectionPage d [] = .ok e ∧
      ∀ k, optNormEquiv (alookup (OrderedCollectionPage.Serialize e) k)
        (alookup d k) = true := by
  obtain ⟨x, hx⟩ : ∃ x, alookup d "type" = some x := by
    cases h : alookup d "type" with
    | none => rw [h] at hv; simp [validateType] at hv
    | some y => exact ⟨y, rfl⟩
  have hres : resolveKey (aliasStr ([] : AliasMap)) "type" = "type" := rfl
  have hTnn : collapseOne (typeElems x) ≠ RawValue.null := by
    cases x with
    | str s => simp [typeElems, collapseOne]
    | arr xs =>
      rw [hx] at hv
      cases xs with
      | nil => simp [validateType] at hv
      | cons y t =>
        cases t with
        | nil =>
          cases y with
          | str s => simp [typeElems, collapseOne]
          | int n => simp [validateType] at hv
          | bool b => simp [validateType] at hv
          | null => simp [validateType] at hv
          | arr l => simp [validateType] at hv
          | obj l => simp [validateType] at hv
        | cons z t2 => simp [typeElems, collapseOne]
    | int n => rw [hx] at hv; simp [validateType] at hv
    | bool b => rw [hx] at hv; simp [validateType] at hv
    | null => rw [hx] at hv; simp [validateType] at hv
    | obj l => rw [hx] at hv; simp [validateType] at hv
  have hTnnTP : TypeProperty.Serialize
      { vocabAlias := aliasStr ([] : AliasMap),
        properties := reindexFrom 0 ((typeElems x).map (mkTypeIter (aliasStr ([] : AliasMap)))) }
      ≠ RawValue.null := by
    rw [TypeProperty_Serialize_deserialized]
    exact hTnn
  have hskp := serializeKnownPart_eq (deserializeGenerics d (aliasStr ([] : AliasMap)))
    { vocabAlias := aliasStr ([] : AliasMap),
      properties := reindexFrom 0 ((typeElems x).map (mkTypeIter (aliasStr ([] : AliasMap)))) }
    (aliasStr ([] : AliasMap))
    (d.filter (fun p => !(exclusionList.contains p.1))) hTnnTP
  rw [TypeProperty_Serialize_deserialized] at hskp
  have htn : (if (aliasStr ([] : AliasMap)).length > 0 then
      (aliasStr ([] : AliasMap)) ++ ":" ++ "OrderedCollectionPage"
    else "OrderedCollectionPage") = "OrderedCollectionPage" := rfl
  rw [htn] at hskp
  have hDGform := deserializeGenerics_nil_alias d
  have hnodupDG : ((deserializeGenerics d (aliasStr ([] : AliasMap))).map Prod.fst).Nodup := by
    rw [hDGform]
    exact dgAux_keys_nodup genericNames d genericNames_nodup
  have hnnDG : ∀ p ∈ deserializeGenerics d (aliasStr ([] : AliasMap)),
      p.2 ≠ RawValue.null := by
    intro p hp
    rw [hDGform] at hp
    have hpd := (dgAux_keys genericNames d p hp).2
    exact hnn (p.1, p.2) (alookup_mem d p.1 p.2 hpd)
  refine ⟨_, DeserializeOrderedCollectionPage_ok d [] hv, ?_⟩
  intro k
  rw [hres, hx]
  simp only [Option.map_some']
  simp only [OrderedCollectionPage.Serialize]
  rw [hskp]
  by_cases hkt : k = "type"
  · subst hkt
    rw [insertUnknowns_pres _ _ _ _ (alookup_mapInsert_self _ _ _), hx]
    show normEquiv (collapseOne (typeElems x)) x = true
    cases x with
    | str s => simp [typeElems, collapseOne, normEquiv, beq_iff_eq]
    | arr xs =>
      cases xs with
      | nil => rw [hx] at hv; simp [validateType] at hv
      | cons y t =>
        cases t with
        | nil => simp [typeElems, collapseOne, normEquiv, beq_iff_eq]
        | cons z t2 => simp [typeElems, collapseOne, normEquiv, beq_iff_eq]
    | int n => rw [hx] at hv; simp [validateType] at hv
    | bool b => rw [hx] at hv; simp [validateType] at hv
    | null => rw [hx] at hv; simp [validateType] at hv
    | obj l => rw [hx] at hv; simp [validateType] at hv
  · by_cases hkg : k ∈ genericNames
    · cases hdk : alookup d k with
      | some v =>
        have hDGk : alookup (deserializeGenerics d (aliasStr ([] : AliasMap))) k = some v := by
          rw [hDGform, dgAux_alookup genericNames d k genericNames_nodup hkg]
          exact hdk
        have hM1 : alookup (serializeGenerics (deserializeGenerics d (aliasStr ([] : AliasMap)))
            (mapInsert [] "type" (RawValue.str "OrderedCollectionPage"))) k = some v := by
          rw [serializeGenerics_alookup _ _ _ hnodupDG hnnDG, hDGk]
        have hM2 : alookup (mapInsert (serializeGenerics
            (deserializeGenerics d (aliasStr ([] : AliasMap)))
            (mapInsert [] "type" (RawValue.str "OrderedCollectionPage")))
            "type" (collapseOne (typeElems x))) k = some v := by
          rw [alookup_mapInsert_ne _ _ _ _ hkt]
          exact hM1
        rw [insertUnknowns_pres _ _ _ _ hM2]
        exact optNormEquiv_refl (some v)
      | none =>
        have hDGk : alookup (deserializeGenerics d (aliasStr ([] : AliasMap))) k = none := by
          rw [hDGform, dgAux_alookup genericNames d k genericNames_nodup hkg]
          exact hdk
        have hM1 : alookup (serializeGenerics (deserializeGenerics d (aliasStr ([] : AliasMap)))
            (mapInsert [] "type" (RawValue.str "OrderedCollectionPage"))) k = none := by
          rw [serializeGenerics_alookup _ _ _ hnodupDG hnnDG, hDGk,
            alookup_mapInsert_ne _ _ _ _ hkt]
          rfl
        have hM2 : alookup (mapInsert (serializeGenerics
            (deserializeGenerics d (aliasStr ([] : AliasMap)))
            (mapInsert [] "type" (RawValue.str "OrderedCollectionPage")))
            "type" (collapseOne (typeElems x))) k = none := by
          rw [alookup_mapInsert_ne _ _ _ _ hkt]
          exact hM1
        rw [insertUnknowns_absent _ _ _ hM2,
          alookup_filter_none d (fun s => !(exclusionList.contains s)) k hdk]
        rfl
    · have hDGk : alookup (deserializeGenerics d (aliasStr ([] : AliasMap))) k = none := by
        rw [hDGform]
        exact dgAux_none genericNames d k hkg
      have hM1 : alookup (serializeGenerics (deserializeGenerics d (aliasStr ([] : AliasMap)))
          (mapInsert [] "type" (RawValue.str "OrderedCollectionPage"))) k = none := by
        rw [serializeGenerics_alookup _ _ _ hnodupDG hnnDG, hDGk,
          alookup_mapInsert_ne _ _ _ _ hkt]
        rfl
      have hM2 : alookup (mapInsert (serializeGenerics
          (deserializeGenerics d (aliasStr ([] : AliasMap)))
          (mapInsert [] "type" (RawValue.str "OrderedCollectionPage")))
          "type" (collapseOne (typeElems x))) k = none := by
        rw [alookup_mapInsert_ne _ _ _ _ hkt]
        exact hM1
      rw [insertUnknowns_absent _ _ _ hM2]
      by_cases hke : k ∈ exclusionList
      · have hkm : k = "contentMap" ∨ k = "nameMap" ∨ k = "summaryMap" := by
          rcases exclusionList_cases k hke with h | h | h | h | h
          · exact absurd h hkt
          · exact absurd h hkg
          · exact Or.inl h
          · exact Or.inr (Or.inl h)
          · exact Or.inr (Or.inr h)
        have hdk : alookup d k = none := by
          cases hdk0 : alookup d k with
          | none => rfl
          | some v =>
            have hmem := alookup_mem d k v hdk0
            have hm3 := hmv (k, v) hmem
            rcases hkm with h | h | h
            · exact absurd h hm3.1
            · exact absurd h hm3.2.1
            · exact absurd h hm3.2.2
        rw [alookup_filter_none d (fun s => !(exclusionList.contains s)) k hdk, hdk]
        rfl
      · have hpred : (!(exclusionList.contains k)) = true := by simpa using hke
        rw [alookup_filter_key d (fun s => !(exclusionList.contains s)) k hpred]
        exact optNormEquiv_refl (alookup d k)

/-- The concrete document used to witness the round trip: an array-valued
type, one known property and one extension key. -/
def c1doc : RawDoc :=
  [("type", RawValue.arr [RawValue.str "OrderedCollectionPage"]),
   ("name", RawValue.str "Page 1"),
   ("ext", RawValue.bool true)]

/-- C1 witness: the round trip holds on a concrete document. -/
theorem C1_witness :
    ∃ e, DeserializeOrderedCollectionPage c1doc [] = .ok e ∧
      ∀ k, optNormEquiv (alookup (OrderedCollectionPage.Serialize e) k)
        (alookup c1doc k) = true :=
  C1_roundtrip c1doc (by decide) (by decide) (by decide)
